import Mathlib

/-!
# BRLTTY BrlAPI server: verification of the specification against the source

Shallow embedding of the parts of the repository that the specification's
claims are about:

* the framed packet transport (`writePacket` / `readPacket`, declared in
  `src/Programs/brlapi.h`; the bodies are not under `src/`, so they are
  modelled from the specification's description of the wire format),
* the protocol constants (`BRLPACKET_*`, `BRLERR_*`, `BRL_KEYBUF_SIZE`,
  `BRLAPI_MAXPACKETSIZE`) translated from `src/Programs/brlapi.h`,
* the per-connection server state machine (the server implementation is not
  under `src/`; it is modelled from the specification),
* the speech conversion table and lookup of `src/MultiBraille/speech.c`,
* the HID report enumeration of `src/Programs/hid_inspect.c`.
-/

/-! ## Protocol constants, translated from src/Programs/brlapi.h -/

/-- BRLAPI_MAXPACKETSIZE (src/Programs/brlapi.h:540). -/
def BRLAPI_MAXPACKETSIZE : Nat := 512

/-- brl_type_t is declared as uint32_t (src/Programs/brlapi.h:543); its width
in bits. -/
def brlTypeBits : Nat := 32

/-- BRLPACKET_AUTHKEY, the character K (src/Programs/brlapi.h:545). -/
def BRLPACKET_AUTHKEY : Nat := 75
/-- BRLPACKET_BYE, the character B (src/Programs/brlapi.h:546). -/
def BRLPACKET_BYE : Nat := 66
/-- BRLPACKET_GETDRIVERID, the character d (src/Programs/brlapi.h:547). -/
def BRLPACKET_GETDRIVERID : Nat := 100
/-- BRLPACKET_GETDRIVERNAME, the character n (src/Programs/brlapi.h:548). -/
def BRLPACKET_GETDRIVERNAME : Nat := 110
/-- BRLPACKET_GETDISPLAYSIZE, the character s (src/Programs/brlapi.h:549). -/
def BRLPACKET_GETDISPLAYSIZE : Nat := 115
/-- BRLPACKET_GETTTY, the character t (src/Programs/brlapi.h:550). -/
def BRLPACKET_GETTTY : Nat := 116
/-- BRLPACKET_LEAVETTY, the character L (src/Programs/brlapi.h:551). -/
def BRLPACKET_LEAVETTY : Nat := 76
/-- BRLPACKET_KEY, the character k (src/Programs/brlapi.h:552). -/
def BRLPACKET_KEY : Nat := 107
/-- BRLPACKET_COMMAND, the character c (src/Programs/brlapi.h:553). -/
def BRLPACKET_COMMAND : Nat := 99
/-- BRLPACKET_MASKKEYS, the character m (src/Programs/brlapi.h:554). -/
def BRLPACKET_MASKKEYS : Nat := 109
/-- BRLPACKET_UNMASKKEYS, the character u (src/Programs/brlapi.h:555). -/
def BRLPACKET_UNMASKKEYS : Nat := 117
/-- BRLPACKET_WRITE, the character W (src/Programs/brlapi.h:556). -/
def BRLPACKET_WRITE : Nat := 87
/-- BRLPACKET_WRITEDOTS, the character D (src/Programs/brlapi.h:557). -/
def BRLPACKET_WRITEDOTS : Nat := 68
/-- BRLPACKET_STATWRITE, the character S (src/Programs/brlapi.h:558). -/
def BRLPACKET_STATWRITE : Nat := 83
/-- BRLPACKET_GETRAW, the character * (src/Programs/brlapi.h:559). -/
def BRLPACKET_GETRAW : Nat := 42
/-- BRLPACKET_LEAVERAW, the character # (src/Programs/brlapi.h:560). -/
def BRLPACKET_LEAVERAW : Nat := 35
/-- BRLPACKET_PACKET, the character p (src/Programs/brlapi.h:561). -/
def BRLPACKET_PACKET : Nat := 112
/-- BRLPACKET_ACK, the character A (src/Programs/brlapi.h:562). -/
def BRLPACKET_ACK : Nat := 65
/-- BRLPACKET_ERROR, the character E (src/Programs/brlapi.h:563). -/
def BRLPACKET_ERROR : Nat := 69

/-- The nineteen packet type codes defined in src/Programs/brlapi.h:545-563. -/
def brlPacketCodes : List Nat :=
  [BRLPACKET_AUTHKEY, BRLPACKET_BYE, BRLPACKET_GETDRIVERID,
   BRLPACKET_GETDRIVERNAME, BRLPACKET_GETDISPLAYSIZE, BRLPACKET_GETTTY,
   BRLPACKET_LEAVETTY, BRLPACKET_KEY, BRLPACKET_COMMAND, BRLPACKET_MASKKEYS,
   BRLPACKET_UNMASKKEYS, BRLPACKET_WRITE, BRLPACKET_WRITEDOTS,
   BRLPACKET_STATWRITE, BRLPACKET_GETRAW, BRLPACKET_LEAVERAW,
   BRLPACKET_PACKET, BRLPACKET_ACK, BRLPACKET_ERROR]

/-- BRLRAW_MAGIC, the magic number of a GETRAW request
(src/Programs/brlapi.h:566). -/
def BRLRAW_MAGIC : Nat := 0xdeadbeef

/-- BRLERR_NOMEM (src/Programs/brlapi.h:516). -/
def BRLERR_NOMEM : Nat := 1
/-- BRLERR_TTYBUSY (src/Programs/brlapi.h:517). -/
def BRLERR_TTYBUSY : Nat := 2
/-- BRLERR_UNKNOWN_INSTRUCTION (src/Programs/brlapi.h:518). -/
def BRLERR_UNKNOWN_INSTRUCTION : Nat := 3
/-- BRLERR_ILLEGAL_INSTRUCTION (src/Programs/brlapi.h:519). -/
def BRLERR_ILLEGAL_INSTRUCTION : Nat := 4
/-- BRLERR_INVALID_PARAMETER (src/Programs/brlapi.h:520). -/
def BRLERR_INVALID_PARAMETER : Nat := 5
/-- BRLERR_INVALID_PACKET (src/Programs/brlapi.h:521). -/
def BRLERR_INVALID_PACKET : Nat := 6
/-- BRLERR_RAWNOTSUPP (src/Programs/brlapi.h:522). -/
def BRLERR_RAWNOTSUPP : Nat := 7
/-- BRLERR_KEYSNOTSUPP (src/Programs/brlapi.h:523). -/
def BRLERR_KEYSNOTSUPP : Nat := 8
/-- BRLERR_CONNREFUSED (src/Programs/brlapi.h:524). -/
def BRLERR_CONNREFUSED : Nat := 9
/-- BRLERR_OPNOTSUPP (src/Programs/brlapi.h:525). -/
def BRLERR_OPNOTSUPP : Nat := 10

/-- The ten error codes defined in src/Programs/brlapi.h:516-525, in
definition order. -/
def brlErrorCodes : List Nat :=
  [BRLERR_NOMEM, BRLERR_TTYBUSY, BRLERR_UNKNOWN_INSTRUCTION,
   BRLERR_ILLEGAL_INSTRUCTION, BRLERR_INVALID_PARAMETER,
   BRLERR_INVALID_PACKET, BRLERR_RAWNOTSUPP, BRLERR_KEYSNOTSUPP,
   BRLERR_CONNREFUSED, BRLERR_OPNOTSUPP]

/-- BRL_KEYBUF_SIZE (src/Programs/brlapi.h:344). -/
def BRL_KEYBUF_SIZE : Nat := 256

/-! ## Framed transport

`brlapi_writePacket` and `brlapi_readPacket` are declared in
`src/Programs/brlapi.h:579` and `src/Programs/brlapi.h:594` but their bodies
are not under `src/`, so the codec is modelled from the specification of the
wire format: 4-byte big-endian payload length, 4-byte big-endian packet type,
then the payload bytes, with the length limited to 504 so that a whole packet
fits in BRLAPI_MAXPACKETSIZE = 512 bytes. -/

/-- Big-endian encoding of a 32-bit value as four bytes (values reduced
mod 2^32). -/
def be32 (n : Nat) : List Nat :=
  [n / 2 ^ 24 % 256, n / 2 ^ 16 % 256, n / 2 ^ 8 % 256, n % 256]

/-- Big-endian decoding of four bytes into a 32-bit value. -/
def be32dec (a b c d : Nat) : Nat :=
  ((a * 256 + b) * 256 + c) * 256 + d

/-- The maximum payload length: BRLAPI_MAXPACKETSIZE minus the two 4-byte
header fields. -/
def maxPayload : Nat := BRLAPI_MAXPACKETSIZE - 8

/-- Modelled from the spec: `brlapi_writePacket` (declared at
src/Programs/brlapi.h:579; body missing from src/). Emits the frame: 4-byte
big-endian payload length, 4-byte big-endian type, payload bytes. -/
def writePacket (t : Nat) (p : List Nat) : List Nat :=
  be32 p.length ++ be32 t ++ p

/-- Result of one `readPacket` call: the return value (payload size on
success, -2 on clean EOF, -1 on I/O error or oversize), the decoded type and
payload when successful, and whether the failure is fatal for the
connection (the oversize case). -/
structure ReadOutcome where
  ret : Int
  ptype : Option Nat
  payload : Option (List Nat)
  fatal : Bool
  deriving DecidableEq

/-- Modelled from the spec: `brlapi_readPacket` (declared at
src/Programs/brlapi.h:594; body missing from src/). `bytes` is what the
stream delivers before it terminates; `ioErr` tells whether the stream
terminates with an I/O error (true) or with EOF (false). A short read is
retried until completion or end of stream, so only the delivered bytes
matter. The decoder reads the 8-byte header, validates the length against
504, then reads the payload. -/
def readPacket (bytes : List Nat) (ioErr : Bool) : ReadOutcome :=
  match bytes with
  | [] => if ioErr then ⟨-1, none, none, false⟩ else ⟨-2, none, none, false⟩
  | l0 :: l1 :: l2 :: l3 :: t0 :: t1 :: t2 :: t3 :: rest =>
    if maxPayload < be32dec l0 l1 l2 l3 then ⟨-1, none, none, true⟩
    else if rest.length < be32dec l0 l1 l2 l3 then ⟨-1, none, none, false⟩
    else ⟨(be32dec l0 l1 l2 l3 : Nat), some (be32dec t0 t1 t2 t3),
          some (rest.take (be32dec l0 l1 l2 l3)), false⟩
  | _ => ⟨-1, none, none, false⟩

theorem be32dec_be32 (n : Nat) (h : n < 2 ^ 32) :
    be32dec (n / 2 ^ 24 % 256) (n / 2 ^ 16 % 256) (n / 2 ^ 8 % 256)
      (n % 256) = n := by
  simp only [be32dec]
  omega

/-- C3: decoding the bytes produced by the frame encoder yields back exactly
the type and payload: for every type t (a 32-bit value) and payload p with
at most 504 bytes, `readPacket` applied to the output of `writePacket t p`
returns payload size `p.length`, type `t` and payload `p`, regardless of how
the stream would have terminated afterwards. -/
theorem readPacket_writePacket (t : Nat) (p : List Nat) (e : Bool)
    (ht : t < 2 ^ 32) (hp : p.length ≤ 504) :
    readPacket (writePacket t p) e =
      ⟨(p.length : Int), some t, some p, false⟩ := by
  have hlen : p.length < 2 ^ 32 := by omega
  simp only [writePacket, be32, List.cons_append, List.nil_append, readPacket,
    be32dec_be32 p.length hlen, be32dec_be32 t ht]
  have hmax : ¬ (maxPayload < p.length) := by
    simp only [maxPayload, BRLAPI_MAXPACKETSIZE]
    omega
  simp [hmax, List.take_length]

/-- C3 witness: the round trip at the concrete frame of scenario 1 of the
specification, type W with payload "hello". -/
theorem readPacket_writePacket_witness :
    readPacket (writePacket 87 [104, 101, 108, 108, 111]) false =
      ⟨5, some 87, some [104, 101, 108, 108, 111], false⟩ :=
  readPacket_writePacket 87 [104, 101, 108, 108, 111] false (by decide)
    (by decide)

/-- C4: the read side error contract. On success the return value is the
payload size (non-negative and at most 504); the return value is -2 exactly
on clean EOF (stream ends before any byte, without an I/O error); a decoded
length field above 504 yields -1 and is fatal for the connection; an I/O
error with an incomplete packet yields -1; and no partial packet is ever
exposed: type and payload are returned exactly when the return value is
non-negative. -/
theorem readPacket_contract (bytes : List Nat) (ioErr : Bool) :
    ((readPacket bytes ioErr).ret = -2 ∨ (readPacket bytes ioErr).ret = -1 ∨
      (∃ tp pl, (readPacket bytes ioErr).ptype = some tp ∧
        (readPacket bytes ioErr).payload = some pl ∧
        (readPacket bytes ioErr).ret = (pl.length : Int) ∧
        pl.length ≤ 504)) ∧
    ((readPacket bytes ioErr).ret = -2 ↔ bytes = [] ∧ ioErr = false) ∧
    ((readPacket bytes ioErr).payload = none ↔
      (readPacket bytes ioErr).ret < 0) ∧
    ((readPacket bytes ioErr).ptype = none ↔
      (readPacket bytes ioErr).ret < 0) ∧
    ((readPacket bytes ioErr).fatal = true →
      (readPacket bytes ioErr).ret = -1) ∧
    (∀ l0 l1 l2 l3 t0 t1 t2 t3 rest,
      bytes = l0 :: l1 :: l2 :: l3 :: t0 :: t1 :: t2 :: t3 :: rest →
      504 < be32dec l0 l1 l2 l3 →
      (readPacket bytes ioErr).ret = -1 ∧
      (readPacket bytes ioErr).fatal = true) := by
  match bytes with
  | [] =>
    cases ioErr <;> simp [readPacket]
  | [a] | [a, b] | [a, b, c] | [a, b, c, d] | [a, b, c, d, e]
  | [a, b, c, d, e, f] | [a, b, c, d, e, f, g] =>
    simp [readPacket]
  | l0 :: l1 :: l2 :: l3 :: t0 :: t1 :: t2 :: t3 :: rest =>
    by_cases hov : maxPayload < be32dec l0 l1 l2 l3
    · have hval : readPacket (l0 :: l1 :: l2 :: l3 :: t0 :: t1 :: t2 :: t3 ::
          rest) ioErr = ⟨-1, none, none, true⟩ := by
        simp only [readPacket, if_pos hov]
      rw [hval]
      refine ⟨Or.inr (Or.inl rfl), by simp, by simp, by simp, fun _ => rfl,
        fun _ _ _ _ _ _ _ _ _ _ _ => ⟨rfl, rfl⟩⟩
    · have h504 : ¬ 504 < be32dec l0 l1 l2 l3 := by
        simpa [maxPayload, BRLAPI_MAXPACKETSIZE] using hov
      by_cases hsh : rest.length < be32dec l0 l1 l2 l3
      · have hval : readPacket (l0 :: l1 :: l2 :: l3 :: t0 :: t1 :: t2 :: t3
            :: rest) ioErr = ⟨-1, none, none, false⟩ := by
          simp only [readPacket, if_neg hov, if_pos hsh]
        rw [hval]
        refine ⟨Or.inr (Or.inl rfl), by simp, by simp, by simp, by simp, ?_⟩
        intro a0 a1 a2 a3 b0 b1 b2 b3 r heq hgt
        simp only [List.cons.injEq] at heq
        obtain ⟨rfl, rfl, rfl, rfl, rfl, rfl, rfl, rfl, rfl⟩ := heq
        exact absurd hgt h504
      · have hle : be32dec l0 l1 l2 l3 ≤ rest.length := Nat.le_of_not_lt hsh
        have hval : readPacket (l0 :: l1 :: l2 :: l3 :: t0 :: t1 :: t2 :: t3
            :: rest) ioErr =
            ⟨(be32dec l0 l1 l2 l3 : Nat), some (be32dec t0 t1 t2 t3),
             some (rest.take (be32dec l0 l1 l2 l3)), false⟩ := by
          simp only [readPacket, if_neg hov, if_neg hsh]
        rw [hval]
        have hlen : (rest.take (be32dec l0 l1 l2 l3)).length =
            be32dec l0 l1 l2 l3 := by
          simp only [List.length_take]
          omega
        refine ⟨?_, ?_, ?_, ?_, ?_, ?_⟩
        · refine Or.inr (Or.inr ⟨be32dec t0 t1 t2 t3,
            rest.take (be32dec l0 l1 l2 l3), rfl, rfl, ?_, ?_⟩)
          · rw [hlen]
          · rw [hlen]
            omega
        · refine iff_of_false
            (show ¬ ((be32dec l0 l1 l2 l3 : Int) = -2) by omega) (by simp)
        · refine iff_of_false (by simp)
            (show ¬ ((be32dec l0 l1 l2 l3 : Int) < 0) by omega)
        · refine iff_of_false (by simp)
            (show ¬ ((be32dec l0 l1 l2 l3 : Int) < 0) by omega)
        · intro h
          exact absurd h (by simp)
        · intro a0 a1 a2 a3 b0 b1 b2 b3 r heq hgt
          simp only [List.cons.injEq] at heq
          obtain ⟨rfl, rfl, rfl, rfl, rfl, rfl, rfl, rfl, rfl⟩ := heq
          exact absurd hgt h504

/-- C4 witness: an 8-byte header declaring a 512-byte payload (above the
504 maximum) is answered with -1 and is fatal, per the oversize clause of
the contract, applied at that concrete frame. -/
theorem readPacket_contract_witness :
    (readPacket [0, 0, 2, 0, 0, 0, 0, 87] false).ret = -1 ∧
      (readPacket [0, 0, 2, 0, 0, 0, 0, 87] false).fatal = true :=
  (readPacket_contract [0, 0, 2, 0, 0, 0, 0, 87] false).2.2.2.2.2
    0 0 2 0 0 0 0 87 [] rfl (by decide)

/-- C7 counterexample: the type field of a wire packet does not occupy one
byte. `brl_type_t` is a 32-bit value (src/Programs/brlapi.h:542-543) and the
frame encoder emits it as four bytes: the empty-payload frame is 8 bytes
long, not the 5 a one-byte type field would give, and the decoder recovers
the type value 300, which does not fit in one byte. -/
theorem packetType_one_byte_cex :
    (writePacket 87 []).length = 8 ∧
    ¬ (writePacket 87 []).length = 4 + 1 + ([] : List Nat).length ∧
    (readPacket (writePacket 300 []) false).ptype = some 300 ∧
    ¬ 300 < 256 := by
  decide

/-- C7 amended: every packet's type field occupies four bytes (brl_type_t is
a 32-bit unsigned integer, sent big-endian), so a frame is 4 + 4 + payload
bytes long; the defined BRLPACKET type code values are ASCII characters
which each fit in one byte. -/
theorem packetType_four_bytes (t : Nat) (p : List Nat) :
    (writePacket t p).length = 4 + 4 + p.length ∧
    brlTypeBits = 32 ∧
    ∀ c ∈ brlPacketCodes, c < 256 := by
  refine ⟨?_, rfl, by decide⟩
  simp only [writePacket, be32, List.length_append, List.length_cons,
    List.length_nil]

/-- C7 amended witness: the frame of scenario 1 (type W, payload "hello")
is 13 bytes long, and the WRITE type code fits in one byte. -/
theorem packetType_four_bytes_witness :
    (writePacket 87 [104, 101, 108, 108, 111]).length = 4 + 4 + 5 ∧
      BRLPACKET_WRITE < 256 :=
  ⟨(packetType_four_bytes 87 [104, 101, 108, 108, 111]).1,
   (packetType_four_bytes 87 []).2.2 BRLPACKET_WRITE (by decide)⟩

/-! ## MultiBraille speech conversion, translated from
src/MultiBraille/speech.c -/

/-- The 128-entry iso-latin-1 to cp437 conversion table
(src/MultiBraille/speech.c:43-59). -/
def latin2cp437 : List Nat :=
  [199, 252, 233, 226, 228, 224, 229, 231,
   234, 235, 232, 239, 238, 236, 196, 197,
   201, 181, 198, 244, 247, 242, 251, 249,
   223, 214, 220, 243, 183, 209, 158, 159,
   255, 173, 155, 156, 177, 157, 188, 21,
   191, 169, 166, 174, 170, 237, 189, 187,
   248, 241, 253, 179, 180, 230, 20, 250,
   184, 185, 167, 175, 172, 171, 190, 168,
   192, 193, 194, 195, 142, 143, 146, 128,
   200, 144, 202, 203, 204, 205, 206, 207,
   208, 165, 210, 211, 212, 213, 153, 215,
   216, 217, 218, 219, 154, 221, 222, 225,
   133, 160, 131, 227, 132, 134, 145, 135,
   138, 130, 136, 137, 141, 161, 140, 139,
   240, 164, 149, 162, 147, 245, 148, 246,
   176, 151, 163, 150, 129, 178, 254, 152]

/-- The table indices used by `say` (src/MultiBraille/speech.c:88-91): for
each byte c of the buffer with c >= 128, the code evaluates
`latin2cp437[c]`, so the index used is c itself. -/
def sayTableIndices (buffer : List Nat) : List Nat :=
  buffer.filter (fun c => 128 ≤ c)

/-- The conversion performed by `say` on one byte
(src/MultiBraille/speech.c:90-91): `if (c >= 128) c = latin2cp437[c];`.
The lookup is returned as an Option: `none` means the index falls outside
the table. -/
def sayTranslate (c : Nat) : Option Nat :=
  if 128 ≤ c then latin2cp437.get? c else some c

set_option maxRecDepth 4000 in
/-- C9 (code bug): for the input buffer containing the single byte 200, the
lookup performed by `say` uses index 200, which is not within the bounds of
the 128-entry latin2cp437 array, so the conversion falls outside the table:
the claim's bound [0, 128) is violated by the code, which indexes the table
with c instead of c - 128. -/
theorem sayTranslate_oob_at_200 :
    sayTableIndices [200] = [200] ∧
    latin2cp437.length = 128 ∧
    ¬ 200 < latin2cp437.length ∧
    sayTranslate 200 = none ∧
    sayTranslate 200 ≠ some (latin2cp437.get ⟨200 - 128, by decide⟩) := by
  decide

/-! ## The API server state machine

The server implementation (connection handling, TTY Registry, Raw-Mode
Arbiter, Key Router) is not under `src/`: only its protocol constants are
(`src/Programs/brlapi.h`). The machine below is modelled from the
specification, sections 4.2-4.7: per-connection state NEW or AUTHENTICATED,
a registry mapping tty to owning connection, a single raw-gate slot, and a
bounded lossy-FIFO key buffer per connection. -/

/-- Association-list lookup on Nat keys. -/
def alookup {α : Type} (l : List (Nat × α)) (k : Nat) : Option α :=
  match l with
  | [] => none
  | (k1, v) :: rest => if k1 = k then some v else alookup rest k

/-- Update the value stored under key `k` (no change when absent). -/
def aupdate {α : Type} (l : List (Nat × α)) (k : Nat) (f : α → α) :
    List (Nat × α) :=
  match l with
  | [] => []
  | (k1, v) :: rest =>
    if k1 = k then (k1, f v) :: aupdate rest k f
    else (k1, v) :: aupdate rest k f

/-- Remove the entry stored under key `k`. -/
def aremove {α : Type} (l : List (Nat × α)) (k : Nat) : List (Nat × α) :=
  l.filter (fun p => p.1 ≠ k)

/-- Modelled from the spec: the state of one Connection (section 3): the
handshake state, the owned tty if any, the raw-mode flag and the bounded
inbound key buffer. -/
structure Conn where
  cstate : Nat          -- 0 = NEW, 1 = AUTHENTICATED
  ownedTty : Option Nat
  inRawMode : Bool
  keyBuffer : List Nat
  deriving DecidableEq

/-- A fresh connection, created on accept: state NEW, no tty, not raw,
empty key buffer. -/
def Conn.fresh : Conn := ⟨0, none, false, []⟩

/-- Modelled from the spec: the server state (sections 4.4-4.7): the secret
key loaded at startup, the collection of connections keyed by connection id,
the TTY Registry mapping tty id to owning connection id, the raw gate
holder, and whether the driver advertises raw support. -/
structure Server where
  key : List Nat
  conns : List (Nat × Conn)
  registry : List (Nat × Nat)
  rawHolder : Option Nat
  rawSupported : Bool
  deriving DecidableEq

/-- The server right after startup with the given secret key. -/
def Server.init (key : List Nat) : Server := ⟨key, [], [], none, true⟩

/-- Modelled from the spec: `acquire(tty_id, conn)` of the TTY Registry
(section 4.4): returns true iff `tty_id` is not present; on success inserts
the mapping. -/
def regAcquire (reg : List (Nat × Nat)) (tty cid : Nat) :
    Bool × List (Nat × Nat) :=
  match alookup reg tty with
  | some _ => (false, reg)
  | none => (true, (tty, cid) :: reg)

/-- Modelled from the spec: `release(conn)` of the TTY Registry
(section 4.4): removes any mapping owned by the connection. -/
def regRelease (reg : List (Nat × Nat)) (cid : Nat) : List (Nat × Nat) :=
  reg.filter (fun p => p.2 ≠ cid)

/-- Modelled from the spec: enqueueing one key event into a connection's
key buffer (sections 3 and 4.5): capacity BRL_KEYBUF_SIZE = 256; when the
buffer is full the oldest entry is dropped and the new one kept. -/
def enqueueKey (buf : List Nat) (k : Nat) : List Nat :=
  if buf.length < BRL_KEYBUF_SIZE then buf ++ [k] else buf.tail ++ [k]

/-- An event handled by the server loop (section 4.7): a new connection, a
decoded packet from a connection, a key event from the driver (with the
foreground tty as probed from the OS), or a disconnect. -/
inductive Event where
  | connect (cid : Nat)
  | recv (cid : Nat) (ptype : Nat) (payload : List Nat)
  | driverKey (fg : Nat) (k : Nat)
  | disconnect (cid : Nat)
  deriving DecidableEq

/-- What one handled event produces: the next server state, the packets
sent (connection id, packet type, payload), and whether the driver
operation `write_cells` was invoked. -/
structure StepOut where
  server : Server
  replies : List (Nat × Nat × List Nat)
  wroteCells : Bool
  deriving DecidableEq

/-- An ACK packet to a connection. -/
def ackReply (cid : Nat) (payload : List Nat) : Nat × Nat × List Nat :=
  (cid, BRLPACKET_ACK, payload)

/-- An ERROR packet to a connection; the payload is the 32-bit error code
(section 6). -/
def errReply (cid code : Nat) : Nat × Nat × List Nat :=
  (cid, BRLPACKET_ERROR, be32 code)

/-- Modelled from the spec: destroying a connection (section 3): its tty
ownership is released and, if it held the raw gate, the gate is freed. -/
def closeConn (s : Server) (cid : Nat) : Server :=
  { s with
    conns := aremove s.conns cid,
    registry := regRelease s.registry cid,
    rawHolder := if s.rawHolder = some cid then none else s.rawHolder }

/-- Modelled from the spec: the GETTTY handler (sections 4.3, 4.4): payload
is two 32-bit values (tty, how); `how` outside {1, 2} is INVALID_PARAMETER,
owning a tty already is ILLEGAL_INSTRUCTION, a tty already registered is
TTYBUSY, otherwise the registry acquire succeeds and the connection records
its owned tty; a malformed payload closes with INVALID_PACKET. -/
def hGetTty (s : Server) (cid : Nat) (conn : Conn) (pl : List Nat) :
    StepOut :=
  match pl with
  | [a0, a1, a2, a3, b0, b1, b2, b3] =>
    if be32dec b0 b1 b2 b3 ≠ 1 ∧ be32dec b0 b1 b2 b3 ≠ 2 then
      ⟨s, [errReply cid BRLERR_INVALID_PARAMETER], false⟩
    else if conn.ownedTty ≠ none then
      ⟨s, [errReply cid BRLERR_ILLEGAL_INSTRUCTION], false⟩
    else
      match regAcquire s.registry (be32dec a0 a1 a2 a3) cid with
      | (false, _) => ⟨s, [errReply cid BRLERR_TTYBUSY], false⟩
      | (true, reg1) =>
        ⟨{ s with
           registry := reg1,
           conns := aupdate s.conns cid
             (fun c => { c with ownedTty := some (be32dec a0 a1 a2 a3) }) },
         [ackReply cid []], false⟩
  | _ => ⟨closeConn s cid, [errReply cid BRLERR_INVALID_PACKET], false⟩

/-- Modelled from the spec: the LEAVETTY handler (section 4.3): drains the
key buffer and releases the tty ownership. -/
def hLeaveTty (s : Server) (cid : Nat) (conn : Conn) : StepOut :=
  if conn.ownedTty = none then
    ⟨s, [errReply cid BRLERR_ILLEGAL_INSTRUCTION], false⟩
  else
    ⟨{ s with
       registry := regRelease s.registry cid,
       conns := aupdate s.conns cid
         (fun c => { c with ownedTty := none, keyBuffer := [] }) },
     [ackReply cid []], false⟩

/-- Modelled from the spec: the WRITE, WRITEDOTS and STATWRITE handler
(sections 4.3, 4.6): while any connection holds the raw gate, every such
request is answered ERROR(ILLEGAL_INSTRUCTION) and the driver is not
touched; otherwise a tty owner gets `write_cells` called and an ACK. -/
def hWriteOps (s : Server) (cid : Nat) (conn : Conn) : StepOut :=
  if s.rawHolder ≠ none then
    ⟨s, [errReply cid BRLERR_ILLEGAL_INSTRUCTION], false⟩
  else if conn.ownedTty = none then
    ⟨s, [errReply cid BRLERR_ILLEGAL_INSTRUCTION], false⟩
  else ⟨s, [ackReply cid []], true⟩

/-- Modelled from the spec: the GETRAW handler (sections 4.3, 4.6): needs
the magic number, an owned tty, driver raw support and a free gate. -/
def hGetRaw (s : Server) (cid : Nat) (conn : Conn) (pl : List Nat) :
    StepOut :=
  if pl ≠ be32 BRLRAW_MAGIC then
    ⟨s, [errReply cid BRLERR_INVALID_PARAMETER], false⟩
  else if conn.ownedTty = none then
    ⟨s, [errReply cid BRLERR_ILLEGAL_INSTRUCTION], false⟩
  else if s.rawSupported = false then
    ⟨s, [errReply cid BRLERR_RAWNOTSUPP], false⟩
  else if s.rawHolder ≠ none then
    ⟨s, [errReply cid BRLERR_ILLEGAL_INSTRUCTION], false⟩
  else
    ⟨{ s with
       rawHolder := some cid,
       conns := aupdate s.conns cid
         (fun c => { c with inRawMode := true }) },
     [ackReply cid []], false⟩

/-- Modelled from the spec: the LEAVERAW handler (section 4.6): only the
holder releases the gate. -/
def hLeaveRaw (s : Server) (cid : Nat) : StepOut :=
  if s.rawHolder = some cid then
    ⟨{ s with
       rawHolder := none,
       conns := aupdate s.conns cid
         (fun c => { c with inRawMode := false }) },
     [ackReply cid []], false⟩
  else ⟨s, [errReply cid BRLERR_ILLEGAL_INSTRUCTION], false⟩

/-- Modelled from the spec: the PACKET handler (section 4.3): the holder
forwards raw bytes to the driver, with no reply. -/
def hRawPacket (s : Server) (cid : Nat) : StepOut :=
  if s.rawHolder = some cid then ⟨s, [], false⟩
  else ⟨s, [errReply cid BRLERR_ILLEGAL_INSTRUCTION], false⟩

/-- Modelled from the spec: the MASKKEYS and UNMASKKEYS handler
(section 4.3): requires an owned tty. -/
def hMaskOps (s : Server) (cid : Nat) (conn : Conn) : StepOut :=
  if conn.ownedTty = none then
    ⟨s, [errReply cid BRLERR_ILLEGAL_INSTRUCTION], false⟩
  else ⟨s, [ackReply cid []], false⟩

/-- Modelled from the spec: dispatch of one request from an AUTHENTICATED
connection (sections 4.3, 4.4, 4.6, 7). Returns the next state, the
replies, and whether `write_cells` was called. -/
def handleAuthed (s : Server) (cid : Nat) (conn : Conn) (pt : Nat)
    (pl : List Nat) : StepOut :=
  if pt = BRLPACKET_GETDRIVERID then ⟨s, [ackReply cid [77, 66]], false⟩
  else if pt = BRLPACKET_GETDRIVERNAME then
    ⟨s, [ackReply cid [77, 117, 108, 116, 105]], false⟩
  else if pt = BRLPACKET_GETDISPLAYSIZE then
    ⟨s, [ackReply cid (be32 40 ++ be32 1)], false⟩
  else if pt = BRLPACKET_GETTTY then hGetTty s cid conn pl
  else if pt = BRLPACKET_LEAVETTY then hLeaveTty s cid conn
  else if pt = BRLPACKET_WRITE ∨ pt = BRLPACKET_WRITEDOTS ∨
      pt = BRLPACKET_STATWRITE then hWriteOps s cid conn
  else if pt = BRLPACKET_GETRAW then hGetRaw s cid conn pl
  else if pt = BRLPACKET_LEAVERAW then hLeaveRaw s cid
  else if pt = BRLPACKET_PACKET then hRawPacket s cid
  else if pt = BRLPACKET_BYE then
    ⟨closeConn s cid, [ackReply cid []], false⟩
  else if pt = BRLPACKET_MASKKEYS ∨ pt = BRLPACKET_UNMASKKEYS then
    hMaskOps s cid conn
  else ⟨s, [errReply cid BRLERR_UNKNOWN_INSTRUCTION], false⟩

/-- Modelled from the spec: one iteration of the server loop handling one
event (sections 4.2, 4.5, 4.7): NEW connections are gated by the AUTHKEY
comparison (equal bytes: ACK and AUTHENTICATED; anything else: CONNREFUSED
and close); key events are short-circuited to the raw channel while the raw
gate is held, otherwise routed to the owner of the foreground tty with
lossy-FIFO buffering. -/
def stepServer (s : Server) (e : Event) : StepOut :=
  match e with
  | .connect cid =>
    match alookup s.conns cid with
    | some _ => ⟨s, [], false⟩
    | none => ⟨{ s with conns := (cid, Conn.fresh) :: s.conns }, [], false⟩
  | .recv cid pt pl =>
    match alookup s.conns cid with
    | none => ⟨s, [], false⟩
    | some conn =>
      if conn.cstate = 0 then
        if pt = BRLPACKET_AUTHKEY then
          if pl = s.key then
            ⟨{ s with conns := aupdate s.conns cid
                                 (fun c => { c with cstate := 1 }) },
             [ackReply cid []], false⟩
          else ⟨closeConn s cid, [errReply cid BRLERR_CONNREFUSED], false⟩
        else ⟨closeConn s cid, [errReply cid BRLERR_CONNREFUSED], false⟩
      else handleAuthed s cid conn pt pl
  | .driverKey fg k =>
    match s.rawHolder with
    | some h => ⟨s, [(h, BRLPACKET_PACKET, [k])], false⟩
    | none =>
      match alookup s.registry fg with
      | none => ⟨s, [], false⟩
      | some owner =>
        ⟨{ s with conns := aupdate s.conns owner
                             (fun c =>
                               { c with
                                 keyBuffer := enqueueKey c.keyBuffer k }) },
         [], false⟩
  | .disconnect cid => ⟨closeConn s cid, [], false⟩

/-- The reachable server states: the initial state for any key, closed
under handling any event. -/
inductive Reachable : Server → Prop
  | init (key : List Nat) : Reachable (Server.init key)
  | step (s : Server) (e : Event) : Reachable s →
      Reachable (stepServer s e).server

/-! ### Association-list lemmas -/

theorem alookup_mem {α : Type} {l : List (Nat × α)} {k : Nat} {v : α}
    (h : alookup l k = some v) : (k, v) ∈ l := by
  induction l with
  | nil => simp [alookup] at h
  | cons p rest ih =>
    obtain ⟨k1, v1⟩ := p
    simp only [alookup] at h
    split at h
    · next heq =>
      injection h with h2
      subst h2
      subst heq
      exact List.mem_cons_self _ _
    · exact List.mem_cons_of_mem _ (ih h)

theorem alookup_none {α : Type} {l : List (Nat × α)} {k : Nat}
    (h : alookup l k = none) (v : α) : (k, v) ∉ l := by
  induction l with
  | nil => simp
  | cons p rest ih =>
    obtain ⟨k1, v1⟩ := p
    simp only [alookup] at h
    split at h
    · exact absurd h (by simp)
    · next hne =>
      intro hv
      rcases List.mem_cons.mp hv with heq | hmem
      · exact hne (congrArg Prod.fst heq).symm
      · exact ih h hmem

theorem mem_alookup {α : Type} {l : List (Nat × α)} {k : Nat} {v : α}
    (hn : (l.map Prod.fst).Nodup) (h : (k, v) ∈ l) : alookup l k = some v := by
  induction l with
  | nil => simp at h
  | cons p rest ih =>
    obtain ⟨k1, v1⟩ := p
    simp only [List.map_cons, List.nodup_cons] at hn
    rcases List.mem_cons.mp h with heq | hmem
    · cases heq
      simp [alookup]
    · have hne : k1 ≠ k := by
        intro hk
        subst hk
        exact hn.1 (List.mem_map.mpr ⟨(k1, v), hmem, rfl⟩)
      simp only [alookup, if_neg hne]
      exact ih hn.2 hmem

theorem mem_keys_eq {α : Type} {l : List (Nat × α)} {k : Nat} {v1 v2 : α}
    (hn : (l.map Prod.fst).Nodup) (h1 : (k, v1) ∈ l) (h2 : (k, v2) ∈ l) :
    v1 = v2 :=
  Option.some.inj ((mem_alookup hn h1).symm.trans (mem_alookup hn h2))

theorem aupdate_map_fst {α : Type} (l : List (Nat × α)) (k : Nat)
    (f : α → α) : (aupdate l k f).map Prod.fst = l.map Prod.fst := by
  induction l with
  | nil => rfl
  | cons p rest ih =>
    obtain ⟨k1, v1⟩ := p
    simp only [aupdate]
    split <;> simp [ih]

theorem mem_aupdate {α : Type} {l : List (Nat × α)} {k : Nat} {f : α → α}
    {k1 : Nat} {v1 : α} :
    (k1, v1) ∈ aupdate l k f ↔
      (k1 ≠ k ∧ (k1, v1) ∈ l) ∨
      (k1 = k ∧ ∃ v0, (k1, v0) ∈ l ∧ v1 = f v0) := by
  induction l with
  | nil => simp [aupdate]
  | cons p rest ih =>
    obtain ⟨k2, v2⟩ := p
    simp only [aupdate]
    split
    · next hk =>
      subst hk
      simp only [List.mem_cons, ih, Prod.mk.injEq]
      constructor
      · rintro (⟨rfl, rfl⟩ | (⟨hne, hm⟩ | ⟨rfl, v0, hm, rfl⟩))
        · exact Or.inr ⟨rfl, v2, Or.inl ⟨rfl, rfl⟩, rfl⟩
        · exact Or.inl ⟨hne, Or.inr hm⟩
        · exact Or.inr ⟨rfl, v0, Or.inr hm, rfl⟩
      · rintro (⟨hne, ⟨rfl, rfl⟩ | hm⟩ | ⟨rfl, v0, ⟨-, rfl⟩ | hm, rfl⟩)
        · exact absurd rfl hne
        · exact Or.inr (Or.inl ⟨hne, hm⟩)
        · exact Or.inl ⟨rfl, rfl⟩
        · exact Or.inr (Or.inr ⟨rfl, v0, hm, rfl⟩)
    · next hk =>
      simp only [List.mem_cons, ih, Prod.mk.injEq]
      constructor
      · rintro (⟨rfl, rfl⟩ | (⟨hne, hm⟩ | ⟨rfl, v0, hm, rfl⟩))
        · exact Or.inl ⟨hk, Or.inl ⟨rfl, rfl⟩⟩
        · exact Or.inl ⟨hne, Or.inr hm⟩
        · exact Or.inr ⟨rfl, v0, Or.inr hm, rfl⟩
      · rintro (⟨hne, ⟨rfl, rfl⟩ | hm⟩ | ⟨rfl, v0, ⟨rfl, rfl⟩ | hm, rfl⟩)
        · exact Or.inl ⟨rfl, rfl⟩
        · exact Or.inr (Or.inl ⟨hne, hm⟩)
        · exact absurd rfl hk
        · exact Or.inr (Or.inr ⟨rfl, v0, hm, rfl⟩)

theorem mem_aremove {α : Type} {l : List (Nat × α)} {k k1 : Nat} {v1 : α} :
    (k1, v1) ∈ aremove l k ↔ (k1, v1) ∈ l ∧ k1 ≠ k := by
  simp [aremove, List.mem_filter]

theorem aremove_map_fst_nodup {α : Type} {l : List (Nat × α)} {k : Nat}
    (hn : (l.map Prod.fst).Nodup) : ((aremove l k).map Prod.fst).Nodup :=
  ((List.filter_sublist l).map Prod.fst).nodup hn

theorem mem_regRelease {reg : List (Nat × Nat)} {cid t c : Nat} :
    (t, c) ∈ regRelease reg cid ↔ (t, c) ∈ reg ∧ c ≠ cid := by
  simp [regRelease, List.mem_filter]

theorem regRelease_map_fst_nodup {reg : List (Nat × Nat)} {cid : Nat}
    (hn : (reg.map Prod.fst).Nodup) :
    ((regRelease reg cid).map Prod.fst).Nodup :=
  ((List.filter_sublist reg).map Prod.fst).nodup hn

theorem alookup_aupdate_self {α : Type} (l : List (Nat × α)) (k : Nat)
    (f : α → α) : alookup (aupdate l k f) k = (alookup l k).map f := by
  induction l with
  | nil => rfl
  | cons p rest ih =>
    obtain ⟨k1, v1⟩ := p
    simp only [aupdate]
    by_cases hk : k1 = k
    · rw [if_pos hk]
      simp [alookup, hk]
    · rw [if_neg hk]
      simp [alookup, hk, ih]

theorem alookup_aremove_self {α : Type} (l : List (Nat × α)) (k : Nat) :
    alookup (aremove l k) k = none := by
  induction l with
  | nil => rfl
  | cons p rest ih =>
    obtain ⟨k1, v1⟩ := p
    by_cases hk : k1 = k
    · subst hk
      simpa [aremove, List.filter] using ih
    · simp only [aremove, List.filter] at ih ⊢
      simp only [decide_not, hk, decide_False, Bool.not_false]
      simpa [alookup, hk] using ih

/-! ### The server invariant -/

/-- The inductive invariant of the server, matching the invariants of
section 3 of the specification: connection ids and registered tty ids are
unique, every registry entry points to a connection that owns that tty, the
raw gate holder is exactly the connection whose raw flag is set, and key
buffers stay within BRL_KEYBUF_SIZE. -/
structure SrvInv (s : Server) : Prop where
  connsNodup : (s.conns.map Prod.fst).Nodup
  regNodup : (s.registry.map Prod.fst).Nodup
  consist : ∀ t c, (t, c) ∈ s.registry →
    ∃ conn, (c, conn) ∈ s.conns ∧ conn.ownedTty = some t
  rawFwd : ∀ c conn, (c, conn) ∈ s.conns → conn.inRawMode = true →
    s.rawHolder = some c
  rawBwd : ∀ c, s.rawHolder = some c →
    ∃ conn, (c, conn) ∈ s.conns ∧ conn.inRawMode = true
  bufBound : ∀ c conn, (c, conn) ∈ s.conns →
    conn.keyBuffer.length ≤ BRL_KEYBUF_SIZE

theorem enqueueKey_length_le {buf : List Nat} {k : Nat}
    (h : buf.length ≤ BRL_KEYBUF_SIZE) :
    (enqueueKey buf k).length ≤ BRL_KEYBUF_SIZE := by
  simp only [enqueueKey, BRL_KEYBUF_SIZE] at *
  split
  · simp only [List.length_append, List.length_cons, List.length_nil]
    next hlt => omega
  · simp only [List.length_append, List.length_tail, List.length_cons,
      List.length_nil]
    omega

theorem inv_closeConn {s : Server} (h : SrvInv s) (cid : Nat) :
    SrvInv (closeConn s cid) := by
  constructor
  · exact aremove_map_fst_nodup h.connsNodup
  · exact regRelease_map_fst_nodup h.regNodup
  · intro t c hm
    obtain ⟨hm2, hne⟩ := mem_regRelease.mp hm
    obtain ⟨conn, hc, ho⟩ := h.consist t c hm2
    exact ⟨conn, mem_aremove.mpr ⟨hc, hne⟩, ho⟩
  · intro c conn hm hr
    obtain ⟨hm2, hne⟩ := mem_aremove.mp hm
    have hh := h.rawFwd c conn hm2 hr
    show (if s.rawHolder = some cid then none else s.rawHolder) = some c
    split
    · next heq =>
      rw [hh] at heq
      exact absurd (Option.some.inj heq) hne
    · exact hh
  · intro c hc
    have hc2 : (if s.rawHolder = some cid then none else s.rawHolder) =
        some c := hc
    split at hc2
    · exact absurd hc2 (by simp)
    · next hne2 =>
      obtain ⟨conn, hm, hr⟩ := h.rawBwd c hc2
      have hcne : c ≠ cid := by
        intro he
        subst he
        exact hne2 hc2
      exact ⟨conn, mem_aremove.mpr ⟨hm, hcne⟩, hr⟩
  · intro c conn hm
    exact h.bufBound c conn (mem_aremove.mp hm).1

theorem inv_aupdate {s : Server} (h : SrvInv s) (cid : Nat) (f : Conn → Conn)
    (hOwn : ∀ c, (f c).ownedTty = c.ownedTty)
    (hRaw : ∀ c, (f c).inRawMode = c.inRawMode)
    (hBuf : ∀ c, c.keyBuffer.length ≤ BRL_KEYBUF_SIZE →
      (f c).keyBuffer.length ≤ BRL_KEYBUF_SIZE) :
    SrvInv { s with conns := aupdate s.conns cid f } := by
  constructor
  · show ((aupdate s.conns cid f).map Prod.fst).Nodup
    rw [aupdate_map_fst]
    exact h.connsNodup
  · exact h.regNodup
  · intro t c hm
    obtain ⟨conn, hcm, ho⟩ := h.consist t c hm
    by_cases hceq : c = cid
    · subst hceq
      exact ⟨f conn, mem_aupdate.mpr (Or.inr ⟨rfl, conn, hcm, rfl⟩),
        by rw [hOwn, ho]⟩
    · exact ⟨conn, mem_aupdate.mpr (Or.inl ⟨hceq, hcm⟩), ho⟩
  · intro c conn hm hr
    rcases mem_aupdate.mp hm with ⟨hne, hm2⟩ | ⟨heq, v0, hm2, hv⟩
    · exact h.rawFwd c conn hm2 hr
    · rw [hv, hRaw] at hr
      exact h.rawFwd c v0 hm2 hr
  · intro c hcr
    obtain ⟨conn, hm, hr⟩ := h.rawBwd c hcr
    by_cases hceq : c = cid
    · subst hceq
      exact ⟨f conn, mem_aupdate.mpr (Or.inr ⟨rfl, conn, hm, rfl⟩),
        by rw [hRaw]; exact hr⟩
    · exact ⟨conn, mem_aupdate.mpr (Or.inl ⟨hceq, hm⟩), hr⟩
  · intro c conn hm
    rcases mem_aupdate.mp hm with ⟨hne, hm2⟩ | ⟨heq, v0, hm2, hv⟩
    · exact h.bufBound c conn hm2
    · rw [hv]
      exact hBuf v0 (h.bufBound c v0 hm2)

theorem inv_connect {s : Server} (h : SrvInv s) {cid : Nat}
    (hl : alookup s.conns cid = none) :
    SrvInv { s with conns := (cid, Conn.fresh) :: s.conns } := by
  constructor
  · show ((((cid, Conn.fresh)) :: s.conns).map Prod.fst).Nodup
    simp only [List.map_cons, List.nodup_cons]
    refine ⟨?_, h.connsNodup⟩
    intro hmem
    obtain ⟨⟨k1, v1⟩, hm, he⟩ := List.mem_map.mp hmem
    dsimp at he
    subst he
    exact alookup_none hl v1 hm
  · exact h.regNodup
  · intro t c hm
    obtain ⟨conn1, hc1, ho1⟩ := h.consist t c hm
    exact ⟨conn1, List.mem_cons_of_mem _ hc1, ho1⟩
  · intro c cn hm hr
    rcases List.mem_cons.mp hm with heq | hm2
    · cases heq
      simp [Conn.fresh] at hr
    · exact h.rawFwd c cn hm2 hr
  · intro c hcr
    obtain ⟨cn, hm, hr⟩ := h.rawBwd c hcr
    exact ⟨cn, List.mem_cons_of_mem _ hm, hr⟩
  · intro c cn hm
    rcases List.mem_cons.mp hm with heq | hm2
    · cases heq
      simp [Conn.fresh]
    · exact h.bufBound c cn hm2

theorem inv_gettty {s : Server} (h : SrvInv s) {cid tty : Nat} {conn : Conn}
    (hc : alookup s.conns cid = some conn) (hown : conn.ownedTty = none)
    (hfree : alookup s.registry tty = none) :
    SrvInv { s with
          registry := (tty, cid) :: s.registry,
          conns := aupdate s.conns cid
            (fun c => { c with ownedTty := some tty }) } := by
  constructor
  · show ((aupdate s.conns cid _).map Prod.fst).Nodup
    rw [aupdate_map_fst]
    exact h.connsNodup
  · show (((tty, cid) :: s.registry).map Prod.fst).Nodup
    simp only [List.map_cons, List.nodup_cons]
    refine ⟨?_, h.regNodup⟩
    intro hmem
    obtain ⟨⟨t1, c1⟩, hm, he⟩ := List.mem_map.mp hmem
    dsimp at he
    subst he
    exact alookup_none hfree c1 hm
  · intro t c hm
    rcases List.mem_cons.mp hm with heq | hm2
    · cases heq
      exact ⟨{ conn with ownedTty := some tty },
        mem_aupdate.mpr (Or.inr ⟨rfl, conn, alookup_mem hc, rfl⟩), rfl⟩
    · obtain ⟨conn1, hc1, ho1⟩ := h.consist t c hm2
      by_cases hceq : c = cid
      · subst hceq
        have he : conn1 = conn := mem_keys_eq h.connsNodup hc1 (alookup_mem hc)
        rw [he, hown] at ho1
        exact absurd ho1 (by simp)
      · exact ⟨conn1, mem_aupdate.mpr (Or.inl ⟨hceq, hc1⟩), ho1⟩
  · intro c cn hm hr
    rcases mem_aupdate.mp hm with ⟨hne, hm2⟩ | ⟨heq, v0, hm2, hv⟩
    · exact h.rawFwd c cn hm2 hr
    · rw [hv] at hr
      exact h.rawFwd c v0 hm2 hr
  · intro c hcr
    obtain ⟨cn, hm, hr⟩ := h.rawBwd c hcr
    by_cases hceq : c = cid
    · subst hceq
      exact ⟨_, mem_aupdate.mpr (Or.inr ⟨rfl, cn, hm, rfl⟩), hr⟩
    · exact ⟨cn, mem_aupdate.mpr (Or.inl ⟨hceq, hm⟩), hr⟩
  · intro c cn hm
    rcases mem_aupdate.mp hm with ⟨hne, hm2⟩ | ⟨heq, v0, hm2, hv⟩
    · exact h.bufBound c cn hm2
    · rw [hv]
      exact h.bufBound c v0 hm2

theorem inv_leavetty {s : Server} (h : SrvInv s) (cid : Nat) :
    SrvInv { s with
          registry := regRelease s.registry cid,
          conns := aupdate s.conns cid
            (fun c => { c with ownedTty := none, keyBuffer := [] }) } := by
  constructor
  · show ((aupdate s.conns cid _).map Prod.fst).Nodup
    rw [aupdate_map_fst]
    exact h.connsNodup
  · exact regRelease_map_fst_nodup h.regNodup
  · intro t c hm
    obtain ⟨hm2, hne⟩ := mem_regRelease.mp hm
    obtain ⟨conn1, hc1, ho1⟩ := h.consist t c hm2
    exact ⟨conn1, mem_aupdate.mpr (Or.inl ⟨hne, hc1⟩), ho1⟩
  · intro c cn hm hr
    rcases mem_aupdate.mp hm with ⟨hne, hm2⟩ | ⟨heq, v0, hm2, hv⟩
    · exact h.rawFwd c cn hm2 hr
    · rw [hv] at hr
      exact h.rawFwd c v0 hm2 hr
  · intro c hcr
    obtain ⟨cn, hm, hr⟩ := h.rawBwd c hcr
    by_cases hceq : c = cid
    · subst hceq
      exact ⟨_, mem_aupdate.mpr (Or.inr ⟨rfl, cn, hm, rfl⟩), hr⟩
    · exact ⟨cn, mem_aupdate.mpr (Or.inl ⟨hceq, hm⟩), hr⟩
  · intro c cn hm
    rcases mem_aupdate.mp hm with ⟨hne, hm2⟩ | ⟨heq, v0, hm2, hv⟩
    · exact h.bufBound c cn hm2
    · rw [hv]
      simp [BRL_KEYBUF_SIZE]

theorem inv_getraw {s : Server} (h : SrvInv s) {cid : Nat} {conn : Conn}
    (hc : alookup s.conns cid = some conn) (hfree : s.rawHolder = none) :
    SrvInv { s with
          rawHolder := some cid,
          conns := aupdate s.conns cid
            (fun c => { c with inRawMode := true }) } := by
  constructor
  · show ((aupdate s.conns cid _).map Prod.fst).Nodup
    rw [aupdate_map_fst]
    exact h.connsNodup
  · exact h.regNodup
  · intro t c hm
    obtain ⟨conn1, hcm, ho⟩ := h.consist t c hm
    by_cases hceq : c = cid
    · subst hceq
      exact ⟨_, mem_aupdate.mpr (Or.inr ⟨rfl, conn1, hcm, rfl⟩), ho⟩
    · exact ⟨conn1, mem_aupdate.mpr (Or.inl ⟨hceq, hcm⟩), ho⟩
  · intro c cn hm hr
    rcases mem_aupdate.mp hm with ⟨hne, hm2⟩ | ⟨heq, v0, hm2, hv⟩
    · have := h.rawFwd c cn hm2 hr
      rw [hfree] at this
      exact absurd this (by simp)
    · subst heq
      rfl
  · intro c hcr
    have he : cid = c := Option.some.inj hcr
    subst he
    exact ⟨{ conn with inRawMode := true },
      mem_aupdate.mpr (Or.inr ⟨rfl, conn, alookup_mem hc, rfl⟩), rfl⟩
  · intro c cn hm
    rcases mem_aupdate.mp hm with ⟨hne, hm2⟩ | ⟨heq, v0, hm2, hv⟩
    · exact h.bufBound c cn hm2
    · rw [hv]
      exact h.bufBound c v0 hm2

theorem inv_leaveraw {s : Server} (h : SrvInv s) {cid : Nat}
    (hold : s.rawHolder = some cid) :
    SrvInv { s with
          rawHolder := none,
          conns := aupdate s.conns cid
            (fun c => { c with inRawMode := false }) } := by
  constructor
  · show ((aupdate s.conns cid _).map Prod.fst).Nodup
    rw [aupdate_map_fst]
    exact h.connsNodup
  · exact h.regNodup
  · intro t c hm
    obtain ⟨conn1, hcm, ho⟩ := h.consist t c hm
    by_cases hceq : c = cid
    · subst hceq
      exact ⟨_, mem_aupdate.mpr (Or.inr ⟨rfl, conn1, hcm, rfl⟩), ho⟩
    · exact ⟨conn1, mem_aupdate.mpr (Or.inl ⟨hceq, hcm⟩), ho⟩
  · intro c cn hm hr
    rcases mem_aupdate.mp hm with ⟨hne, hm2⟩ | ⟨heq, v0, hm2, hv⟩
    · have := h.rawFwd c cn hm2 hr
      rw [hold] at this
      exact absurd (Option.some.inj this) (by intro he; exact hne he.symm)
    · rw [hv] at hr
      simp at hr
  · intro c hcr
    exact absurd hcr (by simp)
  · intro c cn hm
    rcases mem_aupdate.mp hm with ⟨hne, hm2⟩ | ⟨heq, v0, hm2, hv⟩
    · exact h.bufBound c cn hm2
    · rw [hv]
      exact h.bufBound c v0 hm2

theorem inv_hGetTty {s : Server} (h : SrvInv s) {cid : Nat} {conn : Conn}
    (hc : alookup s.conns cid = some conn) (pl : List Nat) :
    SrvInv (hGetTty s cid conn pl).server := by
  delta hGetTty
  split
  · next a0 a1 a2 a3 b0 b1 b2 b3 =>
    split
    · exact h
    split
    · exact h
    next hown2 =>
    split
    · exact h
    · next reg1 heq =>
      have hfree : alookup s.registry (be32dec a0 a1 a2 a3) = none := by
        unfold regAcquire at heq
        cases hl : alookup s.registry (be32dec a0 a1 a2 a3) with
        | some v =>
          rw [hl] at heq
          exact absurd (congrArg Prod.fst heq) (by simp)
        | none => rfl
      have hr1 : reg1 = (be32dec a0 a1 a2 a3, cid) :: s.registry := by
        unfold regAcquire at heq
        rw [hfree] at heq
        exact (congrArg Prod.snd heq).symm
      subst hr1
      exact inv_gettty h hc (not_ne_iff.mp hown2) hfree
  · exact inv_closeConn h cid

theorem inv_hLeaveTty {s : Server} (h : SrvInv s) (cid : Nat) (conn : Conn) :
    SrvInv (hLeaveTty s cid conn).server := by
  delta hLeaveTty
  split
  · exact h
  · exact inv_leavetty h cid

theorem inv_hWriteOps {s : Server} (h : SrvInv s) (cid : Nat) (conn : Conn) :
    SrvInv (hWriteOps s cid conn).server := by
  delta hWriteOps
  split
  · exact h
  split
  · exact h
  · exact h

theorem inv_hGetRaw {s : Server} (h : SrvInv s) {cid : Nat} {conn : Conn}
    (hc : alookup s.conns cid = some conn) (pl : List Nat) :
    SrvInv (hGetRaw s cid conn pl).server := by
  delta hGetRaw
  split
  · exact h
  split
  · exact h
  split
  · exact h
  split
  · exact h
  · next hnh =>
    exact inv_getraw h hc (not_ne_iff.mp hnh)

theorem inv_hLeaveRaw {s : Server} (h : SrvInv s) (cid : Nat) :
    SrvInv (hLeaveRaw s cid).server := by
  delta hLeaveRaw
  split
  · next hold => exact inv_leaveraw h hold
  · exact h

theorem inv_hRawPacket {s : Server} (h : SrvInv s) (cid : Nat) :
    SrvInv (hRawPacket s cid).server := by
  delta hRawPacket
  split
  · exact h
  · exact h

theorem inv_hMaskOps {s : Server} (h : SrvInv s) (cid : Nat) (conn : Conn) :
    SrvInv (hMaskOps s cid conn).server := by
  delta hMaskOps
  split
  · exact h
  · exact h

set_option maxHeartbeats 3200000 in
theorem inv_handleAuthed {s : Server} (h : SrvInv s) {cid : Nat}
    {conn : Conn} (hc : alookup s.conns cid = some conn) (pt : Nat)
    (pl : List Nat) : SrvInv (handleAuthed s cid conn pt pl).server := by
  delta handleAuthed
  split
  · exact h
  split
  · exact h
  split
  · exact h
  split
  · exact inv_hGetTty h hc pl
  split
  · exact inv_hLeaveTty h cid conn
  split
  · exact inv_hWriteOps h cid conn
  split
  · exact inv_hGetRaw h hc pl
  split
  · exact inv_hLeaveRaw h cid
  split
  · exact inv_hRawPacket h cid
  split
  · exact inv_closeConn h cid
  split
  · exact inv_hMaskOps h cid conn
  · exact h

theorem inv_step {s : Server} (h : SrvInv s) (e : Event) :
    SrvInv (stepServer s e).server := by
  cases e with
  | connect cid =>
    simp only [stepServer]
    split
    · exact h
    · next hl => exact inv_connect h hl
  | recv cid pt pl =>
    simp only [stepServer]
    split
    · exact h
    · next conn hl =>
      split
      · split
        · split
          · exact inv_aupdate h cid _ (fun c => rfl) (fun c => rfl)
              (fun c hb => hb)
          · exact inv_closeConn h cid
        · exact inv_closeConn h cid
      · exact inv_handleAuthed h hl pt pl
  | driverKey fg k =>
    simp only [stepServer]
    split
    · exact h
    · split
      · exact h
      · next owner hl =>
        exact inv_aupdate h owner _ (fun c => rfl) (fun c => rfl)
          (fun c hb => enqueueKey_length_le hb)
  | disconnect cid =>
    simp only [stepServer]
    exact inv_closeConn h cid

theorem reachable_inv {s : Server} (h : Reachable s) : SrvInv s := by
  induction h with
  | init key =>
    refine ⟨by simp [Server.init], by simp [Server.init], ?_, ?_, ?_, ?_⟩
    · intro t c hm
      simp [Server.init] at hm
    · intro c conn hm
      simp [Server.init] at hm
    · intro c hc
      simp [Server.init] at hc
    · intro c conn hm
      simp [Server.init] at hm
  | step s e hs ih => exact inv_step ih e

/-! ### Step output lemmas -/

theorem hGetTty_wroteCells (s : Server) (cid : Nat) (conn : Conn)
    (pl : List Nat) : (hGetTty s cid conn pl).wroteCells = false := by
  delta hGetTty
  split
  · split
    · rfl
    split
    · rfl
    · split <;> rfl
  · rfl

theorem hLeaveTty_wroteCells (s : Server) (cid : Nat) (conn : Conn) :
    (hLeaveTty s cid conn).wroteCells = false := by
  delta hLeaveTty
  split <;> rfl

theorem hGetRaw_wroteCells (s : Server) (cid : Nat) (conn : Conn)
    (pl : List Nat) : (hGetRaw s cid conn pl).wroteCells = false := by
  delta hGetRaw
  split
  · rfl
  split
  · rfl
  split
  · rfl
  · split <;> rfl

theorem hLeaveRaw_wroteCells (s : Server) (cid : Nat) :
    (hLeaveRaw s cid).wroteCells = false := by
  delta hLeaveRaw
  split <;> rfl

theorem hRawPacket_wroteCells (s : Server) (cid : Nat) :
    (hRawPacket s cid).wroteCells = false := by
  delta hRawPacket
  split <;> rfl

theorem hMaskOps_wroteCells (s : Server) (cid : Nat) (conn : Conn) :
    (hMaskOps s cid conn).wroteCells = false := by
  delta hMaskOps
  split <;> rfl

theorem hWriteOps_raw {s : Server} {hold : Nat}
    (hr : s.rawHolder = some hold) (cid : Nat) (conn : Conn) :
    hWriteOps s cid conn =
      ⟨s, [errReply cid BRLERR_ILLEGAL_INSTRUCTION], false⟩ := by
  have hne : s.rawHolder ≠ none := by rw [hr]; simp
  delta hWriteOps
  rw [if_pos hne]

set_option maxHeartbeats 3200000 in
theorem handleAuthed_no_write {s : Server} {hold : Nat}
    (hr : s.rawHolder = some hold) (cid : Nat) (conn : Conn) (pt : Nat)
    (pl : List Nat) : (handleAuthed s cid conn pt pl).wroteCells = false := by
  delta handleAuthed
  split
  · rfl
  split
  · rfl
  split
  · rfl
  split
  · exact hGetTty_wroteCells s cid conn pl
  split
  · exact hLeaveTty_wroteCells s cid conn
  split
  · rw [hWriteOps_raw hr]
  split
  · exact hGetRaw_wroteCells s cid conn pl
  split
  · exact hLeaveRaw_wroteCells s cid
  split
  · exact hRawPacket_wroteCells s cid
  split
  · rfl
  split
  · exact hMaskOps_wroteCells s cid conn
  · rfl

theorem step_no_write {s : Server} {hold : Nat}
    (hr : s.rawHolder = some hold) (e : Event) :
    (stepServer s e).wroteCells = false := by
  cases e with
  | connect cid =>
    simp only [stepServer]
    split <;> rfl
  | recv cid pt pl =>
    simp only [stepServer]
    split
    · rfl
    · split
      · split
        · split <;> rfl
        · rfl
      · exact handleAuthed_no_write hr cid _ pt pl
  | driverKey fg k =>
    simp only [stepServer]
    split
    · rfl
    · split <;> rfl
  | disconnect cid => rfl

set_option maxHeartbeats 3200000 in
theorem handleAuthed_write_raw {s : Server} {hold : Nat}
    (hr : s.rawHolder = some hold) (cid : Nat) (conn : Conn) {pt : Nat}
    (hpt : pt = BRLPACKET_WRITE ∨ pt = BRLPACKET_WRITEDOTS ∨
      pt = BRLPACKET_STATWRITE) (pl : List Nat) :
    handleAuthed s cid conn pt pl =
      ⟨s, [errReply cid BRLERR_ILLEGAL_INSTRUCTION], false⟩ := by
  have h1 : pt ≠ BRLPACKET_GETDRIVERID := by
    rcases hpt with rfl | rfl | rfl <;> decide
  have h2 : pt ≠ BRLPACKET_GETDRIVERNAME := by
    rcases hpt with rfl | rfl | rfl <;> decide
  have h3 : pt ≠ BRLPACKET_GETDISPLAYSIZE := by
    rcases hpt with rfl | rfl | rfl <;> decide
  have h4 : pt ≠ BRLPACKET_GETTTY := by
    rcases hpt with rfl | rfl | rfl <;> decide
  have h5 : pt ≠ BRLPACKET_LEAVETTY := by
    rcases hpt with rfl | rfl | rfl <;> decide
  delta handleAuthed
  rw [if_neg h1, if_neg h2, if_neg h3, if_neg h4, if_neg h5, if_pos hpt]
  exact hWriteOps_raw hr cid conn

/-- Every ERROR packet in a reply list carries one of the ten defined error
codes as its 32-bit payload. -/
def RepliesOk (rs : List (Nat × Nat × List Nat)) : Prop :=
  ∀ c p, (c, BRLPACKET_ERROR, p) ∈ rs →
    ∃ code, code ∈ brlErrorCodes ∧ p = be32 code

theorem errReply_ok {cid code : Nat} (hcode : code ∈ brlErrorCodes) :
    RepliesOk [errReply cid code] := by
  intro c p hm
  simp only [errReply, List.mem_singleton, Prod.mk.injEq] at hm
  exact ⟨code, hcode, hm.2.2⟩

theorem ackReply_ok (cid : Nat) (payload : List Nat) :
    RepliesOk [ackReply cid payload] := by
  intro c p hm
  simp only [ackReply, List.mem_singleton, Prod.mk.injEq] at hm
  exact absurd hm.2.1 (by decide)

theorem nilReplies_ok : RepliesOk [] := by
  intro c p hm
  simp at hm

theorem packetReply_ok (cid k : Nat) :
    RepliesOk [(cid, BRLPACKET_PACKET, [k])] := by
  intro c p hm
  simp only [List.mem_singleton, Prod.mk.injEq] at hm
  exact absurd hm.2.1 (by decide)

theorem hGetTty_ok (s : Server) (cid : Nat) (conn : Conn) (pl : List Nat) :
    RepliesOk (hGetTty s cid conn pl).replies := by
  delta hGetTty
  split
  · split
    · exact errReply_ok (by decide)
    split
    · exact errReply_ok (by decide)
    · split
      · exact errReply_ok (by decide)
      · exact ackReply_ok cid []
  · exact errReply_ok (by decide)

theorem hLeaveTty_ok (s : Server) (cid : Nat) (conn : Conn) :
    RepliesOk (hLeaveTty s cid conn).replies := by
  delta hLeaveTty
  split
  · exact errReply_ok (by decide)
  · exact ackReply_ok cid []

theorem hWriteOps_ok (s : Server) (cid : Nat) (conn : Conn) :
    RepliesOk (hWriteOps s cid conn).replies := by
  delta hWriteOps
  split
  · exact errReply_ok (by decide)
  split
  · exact errReply_ok (by decide)
  · exact ackReply_ok cid []

theorem hGetRaw_ok (s : Server) (cid : Nat) (conn : Conn) (pl : List Nat) :
    RepliesOk (hGetRaw s cid conn pl).replies := by
  delta hGetRaw
  split
  · exact errReply_ok (by decide)
  split
  · exact errReply_ok (by decide)
  split
  · exact errReply_ok (by decide)
  split
  · exact errReply_ok (by decide)
  · exact ackReply_ok cid []

theorem hLeaveRaw_ok (s : Server) (cid : Nat) :
    RepliesOk (hLeaveRaw s cid).replies := by
  delta hLeaveRaw
  split
  · exact ackReply_ok cid []
  · exact errReply_ok (by decide)

theorem hRawPacket_ok (s : Server) (cid : Nat) :
    RepliesOk (hRawPacket s cid).replies := by
  delta hRawPacket
  split
  · exact nilReplies_ok
  · exact errReply_ok (by decide)

theorem hMaskOps_ok (s : Server) (cid : Nat) (conn : Conn) :
    RepliesOk (hMaskOps s cid conn).replies := by
  delta hMaskOps
  split
  · exact errReply_ok (by decide)
  · exact ackReply_ok cid []

set_option maxHeartbeats 3200000 in
theorem handleAuthed_ok (s : Server) (cid : Nat) (conn : Conn) (pt : Nat)
    (pl : List Nat) : RepliesOk (handleAuthed s cid conn pt pl).replies := by
  delta handleAuthed
  split
  · exact ackReply_ok cid _
  split
  · exact ackReply_ok cid _
  split
  · exact ackReply_ok cid _
  split
  · exact hGetTty_ok s cid conn pl
  split
  · exact hLeaveTty_ok s cid conn
  split
  · exact hWriteOps_ok s cid conn
  split
  · exact hGetRaw_ok s cid conn pl
  split
  · exact hLeaveRaw_ok s cid
  split
  · exact hRawPacket_ok s cid
  split
  · exact ackReply_ok cid []
  split
  · exact hMaskOps_ok s cid conn
  · exact errReply_ok (by decide)

theorem step_replies_ok (s : Server) (e : Event) :
    RepliesOk (stepServer s e).replies := by
  cases e with
  | connect cid =>
    simp only [stepServer]
    split
    · exact nilReplies_ok
    · exact nilReplies_ok
  | recv cid pt pl =>
    simp only [stepServer]
    split
    · exact nilReplies_ok
    · split
      · split
        · split
          · exact ackReply_ok cid []
          · exact errReply_ok (by decide)
        · exact errReply_ok (by decide)
      · exact handleAuthed_ok s cid _ pt pl
  | driverKey fg k =>
    simp only [stepServer]
    split
    · exact packetReply_ok _ k
    · split
      · exact nilReplies_ok
      · exact nilReplies_ok
  | disconnect cid => exact nilReplies_ok

/-! ### Demonstration states used by the claim witnesses -/

/-- A concrete secret key, as in scenario 1 of the specification. -/
def demoKey : List Nat := [1, 2, 3]

/-- After connection 0 is accepted. -/
def demoS1 : Server := (stepServer (Server.init demoKey) (.connect 0)).server

/-- After connection 0 authenticates with the correct key. -/
def demoS2 : Server :=
  (stepServer demoS1 (.recv 0 BRLPACKET_AUTHKEY demoKey)).server

/-- After connection 0 acquires tty 7 in COMMANDS mode. -/
def demoS3 : Server :=
  (stepServer demoS2 (.recv 0 BRLPACKET_GETTTY (be32 7 ++ be32 2))).server

/-- After connection 0 enters raw mode with the magic number. -/
def demoRaw : Server :=
  (stepServer demoS3 (.recv 0 BRLPACKET_GETRAW (be32 BRLRAW_MAGIC))).server

theorem demoRaw_reachable : Reachable demoRaw :=
  Reachable.step _ _ (Reachable.step _ _ (Reachable.step _ _
    (Reachable.step _ _ (Reachable.init demoKey))))

/-! ## Claim theorems about the server -/

/-- C1: at every reachable server state the TTY Registry maps each tty to at
most one connection and each connection owns at most one registered tty (the
inverse map is injective), and `regAcquire` returns true exactly when the
tty is not already present in the registry. -/
theorem registry_unique_owner (s : Server) (h : Reachable s) :
    (∀ t c1 c2, (t, c1) ∈ s.registry → (t, c2) ∈ s.registry → c1 = c2) ∧
    (∀ t1 t2 c, (t1, c) ∈ s.registry → (t2, c) ∈ s.registry → t1 = t2) ∧
    (∀ tty cid, (regAcquire s.registry tty cid).fst = true ↔
      alookup s.registry tty = none) := by
  have hi := reachable_inv h
  refine ⟨?_, ?_, ?_⟩
  · intro t c1 c2 h1 h2
    exact mem_keys_eq hi.regNodup h1 h2
  · intro t1 t2 c h1 h2
    obtain ⟨conn1, hm1, ho1⟩ := hi.consist t1 c h1
    obtain ⟨conn2, hm2, ho2⟩ := hi.consist t2 c h2
    have he : conn1 = conn2 := mem_keys_eq hi.connsNodup hm1 hm2
    rw [he, ho2] at ho1
    exact (Option.some.inj ho1).symm
  · intro tty cid
    constructor
    · intro hacq
      cases hl : alookup s.registry tty with
      | none => rfl
      | some v =>
        unfold regAcquire at hacq
        rw [hl] at hacq
        simp at hacq
    · intro hl
      unfold regAcquire
      rw [hl]

/-- C1 witness: in the reachable state where connection 0 owns tty 7, the
registry maps tty 7 uniquely and a second acquire of tty 7 returns false. -/
theorem registry_unique_owner_witness :
    ((7, 0) ∈ demoS3.registry → (7, 0) ∈ demoS3.registry → 0 = 0) ∧
      ¬ (regAcquire demoS3.registry 7 1).fst = true :=
  ⟨fun h1 h2 => (registry_unique_owner demoS3
      (Reachable.step _ _ (Reachable.step _ _ (Reachable.step _ _
        (Reachable.init demoKey))))).1 7 0 0 h1 h2,
   fun hacq =>
     absurd (((registry_unique_owner demoS3
         (Reachable.step _ _ (Reachable.step _ _ (Reachable.step _ _
           (Reachable.init demoKey))))).2.2 7 1).mp hacq) (by decide)⟩

/-- C2: at every reachable state at most one connection is in raw mode, and
while the raw gate is held the driver's `write_cells` is never invoked by
any event and every WRITE, WRITEDOTS or STATWRITE request from any
authenticated connection (the holder included) is answered with
ERROR(ILLEGAL_INSTRUCTION), whose code value is 4. -/
theorem raw_exclusivity (s : Server) (h : Reachable s) :
    (∀ c1 n1 c2 n2, (c1, n1) ∈ s.conns → (c2, n2) ∈ s.conns →
      n1.inRawMode = true → n2.inRawMode = true → c1 = c2) ∧
    (∀ hold, s.rawHolder = some hold →
      (∀ e, (stepServer s e).wroteCells = false) ∧
      (∀ cid conn pt pl, alookup s.conns cid = some conn →
        conn.cstate = 1 →
        (pt = BRLPACKET_WRITE ∨ pt = BRLPACKET_WRITEDOTS ∨
          pt = BRLPACKET_STATWRITE) →
        (stepServer s (.recv cid pt pl)).replies =
          [errReply cid BRLERR_ILLEGAL_INSTRUCTION] ∧
        BRLERR_ILLEGAL_INSTRUCTION = 4)) := by
  have hi := reachable_inv h
  refine ⟨?_, ?_⟩
  · intro c1 n1 c2 n2 h1 h2 hr1 hr2
    have e1 := hi.rawFwd c1 n1 h1 hr1
    have e2 := hi.rawFwd c2 n2 h2 hr2
    rw [e1] at e2
    exact Option.some.inj e2
  · intro hold hr
    refine ⟨fun e => step_no_write hr e, ?_⟩
    intro cid conn pt pl hc hcs hpt
    have hns : ¬ conn.cstate = 0 := by rw [hcs]; decide
    refine ⟨?_, rfl⟩
    simp only [stepServer, hc]
    rw [if_neg hns, handleAuthed_write_raw hr cid conn hpt pl]

/-- C2 witness: in the reachable state where connection 0 holds the raw
gate, a WRITE request from connection 0 itself is answered with ERROR code
4 (ILLEGAL_INSTRUCTION). -/
theorem raw_exclusivity_witness :
    (stepServer demoRaw (.recv 0 BRLPACKET_WRITE [])).replies =
      [errReply 0 BRLERR_ILLEGAL_INSTRUCTION] ∧
    BRLERR_ILLEGAL_INSTRUCTION = 4 :=
  ((raw_exclusivity demoRaw demoRaw_reachable).2 0 (by decide)).2
    0 ⟨1, some 7, true, []⟩ BRLPACKET_WRITE [] (by decide) rfl (Or.inl rfl)

/-- C5: a connection in state NEW whose first packet is AUTHKEY with payload
equal byte-for-byte to the server key is answered ACK and becomes
AUTHENTICATED; any other first packet (other type, or any payload
difference, length differences included) is answered
ERROR(CONNREFUSED) - code value 9 - and the connection is closed. -/
theorem auth_handshake (s : Server) (h : Reachable s) (cid : Nat)
    (conn : Conn) (hc : alookup s.conns cid = some conn)
    (hnew : conn.cstate = 0) (pt : Nat) (pl : List Nat) :
    (pt = BRLPACKET_AUTHKEY → pl = s.key →
      (stepServer s (.recv cid pt pl)).replies = [ackReply cid []] ∧
      alookup (stepServer s (.recv cid pt pl)).server.conns cid =
        some { conn with cstate := 1 }) ∧
    ((pt ≠ BRLPACKET_AUTHKEY ∨ pl ≠ s.key) →
      (stepServer s (.recv cid pt pl)).replies =
        [errReply cid BRLERR_CONNREFUSED] ∧
      alookup (stepServer s (.recv cid pt pl)).server.conns cid = none ∧
      BRLERR_CONNREFUSED = 9) := by
  constructor
  · intro hpt hpl
    subst hpt
    subst hpl
    simp only [stepServer, hc]
    rw [if_pos hnew]
    simp only [if_true]
    refine ⟨by trivial, ?_⟩
    show alookup (aupdate s.conns cid _) cid = _
    rw [alookup_aupdate_self, hc]
    rfl
  · intro hor
    have hclose :
        stepServer s (.recv cid pt pl) =
          ⟨closeConn s cid, [errReply cid BRLERR_CONNREFUSED], false⟩ := by
      simp only [stepServer, hc]
      rw [if_pos hnew]
      rcases hor with hptn | hpln
      · rw [if_neg hptn]
      · by_cases hpt : pt = BRLPACKET_AUTHKEY
        · rw [if_pos hpt, if_neg hpln]
        · rw [if_neg hpt]
    rw [hclose]
    exact ⟨rfl, alookup_aremove_self s.conns cid, rfl⟩

/-- C5 witness: a fresh connection presenting the correct key [1, 2, 3] is
ACKed and becomes authenticated. -/
theorem auth_handshake_witness :
    (stepServer demoS1 (.recv 0 BRLPACKET_AUTHKEY [1, 2, 3])).replies =
      [ackReply 0 []] ∧
    alookup (stepServer demoS1
      (.recv 0 BRLPACKET_AUTHKEY [1, 2, 3])).server.conns 0 =
      some { Conn.fresh with cstate := 1 } :=
  (auth_handshake demoS1 (Reachable.step _ _ (Reachable.init demoKey))
    0 Conn.fresh (by decide) rfl BRLPACKET_AUTHKEY [1, 2, 3]).1 rfl (by decide)

/-- C6: at every reachable state every connection's key buffer holds at
most BRL_KEYBUF_SIZE = 256 entries; enqueueing into a full buffer drops the
oldest entry and keeps the new one, and enqueueing never grows a buffer
beyond the bound (it is a total function, so it never fails). -/
theorem keybuf_bounded (s : Server) (h : Reachable s) :
    (∀ c conn, (c, conn) ∈ s.conns →
      conn.keyBuffer.length ≤ BRL_KEYBUF_SIZE) ∧
    (∀ buf k, buf.length = BRL_KEYBUF_SIZE →
      enqueueKey buf k = buf.tail ++ [k]) ∧
    (∀ buf k, buf.length ≤ BRL_KEYBUF_SIZE →
      (enqueueKey buf k).length ≤ BRL_KEYBUF_SIZE) ∧
    BRL_KEYBUF_SIZE = 256 := by
  have hi := reachable_inv h
  refine ⟨hi.bufBound, ?_, ?_, rfl⟩
  · intro buf k hb
    simp [enqueueKey, hb]
  · intro buf k hb
    exact enqueueKey_length_le hb

/-- C6 witness: enqueueing the key 5 into a full buffer of 256 zeroes drops
the oldest zero and appends the 5. -/
theorem keybuf_bounded_witness :
    enqueueKey (List.replicate 256 0) 5 =
      (List.replicate 256 0).tail ++ [5] :=
  (keybuf_bounded (Server.init demoKey) (Reachable.init demoKey)).2.1
    (List.replicate 256 0) 5 (by rw [List.length_replicate]; rfl)

/-- C8: the error codes defined by the header are exactly the ten values
1 to 10 of the taxonomy, under their claimed names, and every ERROR packet
the server ever emits in reply to any event carries one of these ten codes
as its payload. -/
theorem error_taxonomy :
    brlErrorCodes = [1, 2, 3, 4, 5, 6, 7, 8, 9, 10] ∧
    BRLERR_NOMEM = 1 ∧ BRLERR_TTYBUSY = 2 ∧
    BRLERR_UNKNOWN_INSTRUCTION = 3 ∧ BRLERR_ILLEGAL_INSTRUCTION = 4 ∧
    BRLERR_INVALID_PARAMETER = 5 ∧ BRLERR_INVALID_PACKET = 6 ∧
    BRLERR_RAWNOTSUPP = 7 ∧ BRLERR_KEYSNOTSUPP = 8 ∧
    BRLERR_CONNREFUSED = 9 ∧ BRLERR_OPNOTSUPP = 10 ∧
    ∀ (s : Server) (e : Event), RepliesOk (stepServer s e).replies :=
  ⟨rfl, rfl, rfl, rfl, rfl, rfl, rfl, rfl, rfl, rfl, rfl, step_replies_ok⟩

/-- C8 witness: the ERROR packet sent for a failed authentication carries
the code 9, a member of the taxonomy. -/
theorem error_taxonomy_witness :
    ∃ code, code ∈ brlErrorCodes ∧ be32 BRLERR_CONNREFUSED = be32 code :=
  error_taxonomy.2.2.2.2.2.2.2.2.2.2.2 demoS1 (.recv 0 BRLPACKET_AUTHKEY [9])
    0 (be32 BRLERR_CONNREFUSED) (by decide)

/-! ## HID report enumeration, translated from src/Programs/hid_inspect.c

`hidGetReports` (src/Programs/hid_inspect.c:30-82) walks the descriptor
with `hidGetNextItem`, whose implementation is not under `src/`; the walk
is therefore abstracted as a list of already-parsed items, keeping the
loop body itself faithful to the source. -/

/-- One parsed HID item, as classified by the switch of hidGetReports
(src/Programs/hid_inspect.c:45-63): a ReportID item carrying its value
(`item.value.u`), the three main item types Input, Output and Feature, and
anything else (ignored by the loop). -/
inductive HidItem where
  | reportID (value : Nat)
  | input
  | output
  | feature
  | other
  deriving DecidableEq

/-- The scan state of hidGetReports (src/Programs/hid_inspect.c:32-36):
the identifiers array, declared `unsigned char identifiers[UINT8_MAX]` -
255 slots, indices 0 to 254; the unsigned char counter; the haveIdentifier
bitmask (sized UINT8_MAX + 1) represented as the list of identifiers
already recorded; and the trace of the indices at which the loop stores
into the identifiers array, in order. The trace is what records an
out-of-range store: `List.set` leaves the list unchanged when the index
is not below its length, whereas the C store at such an index is out of
bounds. -/
structure HidScan where
  scratch : List Nat
  count : Nat
  seen : List Nat
  writes : List Nat
  deriving DecidableEq

/-- The scan state before the loop: the 255 slots of
identifiers[UINT8_MAX] (src/Programs/hid_inspect.c:32), count 0, empty
mask, no stores yet. -/
def hidScanInit : HidScan := ⟨List.replicate 255 0, 0, [], []⟩

/-- One iteration of the item loop of hidGetReports
(src/Programs/hid_inspect.c:41-64): a ReportID item with nonzero value at
most UINT8_MAX that is not in the bitmask is stored by
`identifiers[count++] = identifier` - a store at index `count`, appended
to the trace, after which the unsigned char counter increments mod 256;
an Input, Output or Feature item met while `count` is zero stores the
identifier 0 at index 0. -/
def hidStep (st : HidScan) (item : HidItem) : HidScan :=
  match item with
  | .reportID v =>
    if v = 0 then st
    else if 255 < v then st
    else if v ∈ st.seen then st
    else ⟨st.scratch.set st.count v, (st.count + 1) % 256, v :: st.seen,
          st.writes ++ [st.count]⟩
  | .input | .output | .feature =>
    if st.count = 0 then ⟨st.scratch.set 0 0, 1, st.seen, st.writes ++ [0]⟩
    else st
  | .other => st

/-- hidGetReports (src/Programs/hid_inspect.c:30-82) over a parsed item
stream: the returned `count` field and the `identifiers` list (`count`
bytes copied out of the array). The NULL return on allocation failure is
outside the model. -/
def hidGetReports (items : List HidItem) : Nat × List Nat :=
  let st := items.foldl hidStep hidScanInit
  (st.count, st.scratch.take st.count)

/-- The indices at which hidGetReports stores into the identifiers array
while scanning the given item stream. Any index not below 255 lies past
the end of `unsigned char identifiers[UINT8_MAX]`. -/
def hidWriteIndices (items : List HidItem) : List Nat :=
  (items.foldl hidStep hidScanInit).writes

/-- The item stream that drives the loop to its 256th store: one Input
item, then the ReportID items with values 1, 2, ..., 255. -/
def hidOverflowItems : List HidItem :=
  HidItem.input :: (List.range 255).map (fun i => HidItem.reportID (i + 1))

set_option maxRecDepth 200000 in
/-- C10 (code bug): on the descriptor parsing to one Input item followed
by the ReportID items 1 to 255, the loop stores at the indices
0, 1, ..., 255 in order - 256 stores, one per recorded identifier - while
the identifiers array has only the 255 slots 0 to 254: the last store,
`identifiers[255] = 255`, is out of bounds in the source, so the claimed
guarantees on the returned list and count cannot be honored on this
reachable input. (In the model, where the out-of-range store is dropped,
the wrapped unsigned char counter additionally makes the function return
count 0 after having recorded 256 identifiers.) -/
theorem hidGetReports_oob :
    hidWriteIndices hidOverflowItems = List.range 256 ∧
    (hidOverflowItems.foldl hidStep hidScanInit).scratch.length = 255 ∧
    255 ∈ hidWriteIndices hidOverflowItems ∧
    ¬ 255 < (hidOverflowItems.foldl hidStep hidScanInit).scratch.length ∧
    (hidGetReports hidOverflowItems).1 = 0 := by
  decide
